import Mathlib

/-!
Verification of the RTCM3 frame scanner, CRC24Q checksum, bit-field reader,
message classifier and MSM7 decoder of `src/src/main.rs`.

Machine integers are embedded as `Nat` with explicit `% 2 ^ 32` where the
source works in `u32` and the value could exceed the width.  A Rust panic
(slice index out of bounds) is embedded as `Option.none`; every fallible
operation therefore returns an `Option`.
-/

/-- `enum MessageType` from the source, one constructor per variant. -/
inductive MessageType where
  | Unknown (val : Nat)
  | SystemParamters
  | StationaryRTKReferenceStationARPWithAntennaHeight
  | AntennaDescriptorAndSerialNumber
  | ReceiverWithAntennaDescriptors
  | GPSExtendedL1AndL2RTKObservables
  | GPSMSM7
  | GPSEphemerides
  | BeiDouEphemeris
  | BeiDouMSM7
  | GalileoEphemeris
  | GalileoMSM7
  | GalileoFNAVSatelliteEphemeris
  | GLONASSMSM7
  | GLONASSL1AndL2CodePhaseBiases
  | GLONASSEphemerides
  | QZSSMSM7
  | QZSSEphemerides
  deriving DecidableEq, Repr

/-- `enum MessageInformation` from the source. -/
inductive MessageInformation where
  | MSM7 (message_number reference_station_id epoch_time : Nat)
  | Unknown
  deriving DecidableEq, Repr

/-- `struct RTCM3Message { raw: Vec<u8> }` from the source. -/
structure RTCM3Message where
  raw : List Nat
  deriving DecidableEq, Repr

/-- The `match msgtype` table inside `get_type` in the source. -/
def lookupType (msgtype : Nat) : MessageType :=
  match msgtype with
  | 1004 => MessageType.GPSExtendedL1AndL2RTKObservables
  | 1042 => MessageType.BeiDouEphemeris
  | 1046 => MessageType.GalileoEphemeris
  | 1127 => MessageType.BeiDouMSM7
  | 1077 => MessageType.GPSMSM7
  | 1087 => MessageType.GLONASSMSM7
  | 1117 => MessageType.QZSSMSM7
  | 1097 => MessageType.GalileoMSM7
  | 1006 => MessageType.StationaryRTKReferenceStationARPWithAntennaHeight
  | 1008 => MessageType.AntennaDescriptorAndSerialNumber
  | 1033 => MessageType.ReceiverWithAntennaDescriptors
  | 1230 => MessageType.GLONASSL1AndL2CodePhaseBiases
  | 1013 => MessageType.SystemParamters
  | 1019 => MessageType.GPSEphemerides
  | 1020 => MessageType.GLONASSEphemerides
  | 1045 => MessageType.GalileoFNAVSatelliteEphemeris
  | 1044 => MessageType.QZSSEphemerides
  | _ => MessageType.Unknown msgtype

/-- `fn get_type` from the source:
`(self.raw[0] as u16) << 4 | (self.raw[1] as u16) >> 4`, then the table.
The two direct index accesses panic (here: `none`) when `raw` has fewer
than two bytes. -/
def get_type (raw : List Nat) : Option MessageType :=
  match raw.get? 0, raw.get? 1 with
  | some r0, some r1 => some (lookupType ((r0 <<< 4) ||| (r1 >>> 4)))
  | _, _ => none

/-- Loop body of `fn parse_bits` from the source, one iteration per bit.
`n` counts the remaining iterations, `i` is the loop index, `value` the
accumulator (a `u32`, hence the `% 2 ^ 32`).  An out-of-bounds byte index
panics (`none`). -/
def parseBitsAux (data : List Nat) (start_bit : Nat) : Nat → Nat → Nat → Option Nat
  | 0, _, value => some value
  | n + 1, i, value =>
    match data.get? ((start_bit + i) / 8) with
    | none => none
    | some byte =>
      parseBitsAux data start_bit n (i + 1)
        (((value <<< 1) % 2 ^ 32) ||| ((byte >>> (7 - (start_bit + i) % 8)) &&& 1))

/-- `fn parse_bits(data, start_bit, length)` from the source. -/
def parse_bits (data : List Nat) (start_bit length : Nat) : Option Nat :=
  parseBitsAux data start_bit length 0 0

/-- `fn extract_msm7` from the source; the `as u16` casts are `% 2 ^ 16`. -/
def extract_msm7 (raw : List Nat) : Option MessageInformation :=
  match parse_bits raw 0 12, parse_bits raw 12 12, parse_bits raw 24 30 with
  | some a, some b, some c =>
      some (MessageInformation.MSM7 (a % 2 ^ 16) (b % 2 ^ 16) c)
  | _, _, _ => none

/-- `fn get_information` from the source: only the `BeiDouMSM7` kind
dispatches to `extract_msm7`; every other kind yields `Unknown`. -/
def get_information (m : RTCM3Message) : Option MessageInformation :=
  match get_type m.raw with
  | some MessageType.BeiDouMSM7 => extract_msm7 m.raw
  | some _ => some MessageInformation.Unknown
  | none => none

/-- One round of the CRC24Q inner loop from `fn crc24q_new`:
`crc <<= 1; if crc & 0x1000000 != 0 { crc ^= poly }` on a `u32`. -/
def crcRound (crc : Nat) : Nat :=
  let c := (crc <<< 1) % 2 ^ 32
  if c &&& 0x1000000 ≠ 0 then c ^^^ 0x1864CFB else c

/-- `n` iterations of `crcRound`. -/
def crcRounds : Nat → Nat → Nat
  | 0, crc => crc
  | n + 1, crc => crcRounds n (crcRound crc)

/-- Per-byte step of `fn crc24q_new`: `crc ^= (octet as u32) << 16` then
eight rounds. -/
def crcByte (crc octet : Nat) : Nat :=
  crcRounds 8 (crc ^^^ (octet <<< 16))

/-- `fn crc24q_new` from the source. -/
def crc24q_new (data : List Nat) : Nat :=
  (data.foldl crcByte 0) &&& 0xFFFFFF

/-- The length computation of the scanner in `fn parse_rtcm3`:
`((byte2 as u16) << 8) | byte3 as u16` — note: no mask to 10 bits. -/
def scanLength (byte2 byte3 : Nat) : Nat :=
  (byte2 <<< 8) ||| byte3

/-- The scanner loop of `fn parse_rtcm3`, embedded with explicit fuel so
that it is structurally recursive.  Outer `none` means the fuel ran out
(never happens with fuel `> buffer.length - offset`, proved below); `some
none` is a Rust panic (the reads `data[1]`/`data[2]` happen before the
remaining-length check); `some (some msgs)` is normal completion. -/
def scanGo (buffer : List Nat) : Nat → Nat → Option (Option (List RTCM3Message))
  | 0, _ => none
  | fuel + 1, offset =>
    if offset < buffer.length then
      let byte1 := buffer.getD offset 0
      if byte1 ≠ 0xD3 then
        scanGo buffer fuel (offset + 1)
      else
        match buffer.get? (offset + 1), buffer.get? (offset + 2) with
        | some byte2, some byte3 =>
          let length := scanLength byte2 byte3
          if buffer.length - offset < length + 6 then
            scanGo buffer fuel (offset + 1)
          else if crc24q_new ((buffer.drop offset).take (length + 6)) ≠ 0 then
            scanGo buffer fuel (offset + 1)
          else
            (scanGo buffer fuel (offset + length + 7)).map
              (Option.map (fun rest => RTCM3Message.mk ((buffer.drop (offset + 3)).take length) :: rest))
        | _, _ => some none
    else some (some [])

/-- The scanning part of `fn parse_rtcm3` over an already-materialized
buffer.  `buffer.length + 1` units of fuel always suffice (proved below),
so `Option.join` only collapses the fuel layer. -/
def parse_rtcm3 (buffer : List Nat) : Option (List RTCM3Message) :=
  (scanGo buffer (buffer.length + 1) 0).join

/-- The composition performed by `fn main`: scan, then classify and decode
each message in input order. -/
def pipeline (buffer : List Nat) : Option (List (MessageType × MessageInformation)) :=
  match parse_rtcm3 buffer with
  | none => none
  | some msgs =>
      msgs.mapM (fun m =>
        match get_type m.raw, get_information m with
        | some t, some i => some (t, i)
        | _, _ => none)

/-! ### Spec-side definitions (for refinement claims) -/

/-- Spec-side single CRC24Q round, following the spec's words: "shift
register left by 1; if bit 24 is set, XOR the register with the
polynomial". -/
def crcSpecRound (r : Nat) : Nat :=
  let r2 := (r * 2) % 2 ^ 32
  if r2.testBit 24 then r2 ^^^ 0x1864CFB else r2

/-- Spec-side CRC24Q register evolution: "for each input byte, XOR it into
bits 16–23 of a 32-bit register, then perform 8 rounds". -/
def crcSpecAux : List Nat → Nat → Nat
  | [], r => r % 2 ^ 24
  | b :: rest, r => crcSpecAux rest (crcSpecRound^[8] (r ^^^ (b <<< 16)))

/-- Spec-side CRC24Q: initial register 0, final result the low 24 bits. -/
def crcSpec (data : List Nat) : Nat :=
  crcSpecAux data 0

/-- Spec-side bit numbering: "bit index `i` resides in `buffer[i / 8]` at
position `7 - (i % 8)` counting from the least-significant bit". -/
def bitAt (data : List Nat) (i : Nat) : Nat :=
  ((data.getD (i / 8) 0) >>> (7 - i % 8)) &&& 1

/-- Spec-side value of a bit-field read: the unsigned integer whose bits,
most significant first, are the buffer bits `start_bit` … `start_bit +
bit_length - 1`. -/
def readBitsSpecVal (data : List Nat) (s l : Nat) : Nat :=
  ∑ j ∈ Finset.range l, bitAt data (s + j) * 2 ^ (l - 1 - j)

/-! ### Concrete test vectors -/

/-- A valid frame whose payload `[0xFF, 0xF0]` has message number 4095,
absent from the classification table. -/
def frameA : List Nat := [0xD3, 0x00, 0x02, 0xFF, 0xF0, 0x0D, 0x4D, 0x7C]

/-- A GPS-MSM7 payload carrying message_number 1077, reference_station_id 5
and epoch_time 123456 at bit offsets 0, 12, 24 with widths 12, 12, 30. -/
def payloadB : List Nat := [0x43, 0x50, 0x05, 0x00, 0x07, 0x89, 0x00]

/-- A valid frame around `payloadB` (length 7, correct CRC24Q trailer). -/
def frameB : List Nat :=
  [0xD3, 0x00, 0x07] ++ payloadB ++ [0x36, 0xA4, 0x2B]

/-! ### Bitwise helper lemmas -/

lemma testBit_mul_pow_add_low (x y n j : Nat) (hj : j < n) :
    (x * 2 ^ n + y).testBit j = y.testBit j := by
  rw [Nat.testBit_to_div_mod, Nat.testBit_to_div_mod]
  have h2 : (2 : Nat) ^ n = 2 ^ (n - j - 1) * 2 * 2 ^ j := by
    rw [← Nat.pow_succ, ← Nat.pow_add]
    congr 1
    omega
  have hx : x * 2 ^ n = x * 2 ^ (n - j - 1) * 2 * 2 ^ j := by
    rw [h2]
    ring
  rw [hx, Nat.add_comm, Nat.add_mul_div_right _ _ (Nat.pos_pow_of_pos j (by norm_num)),
    Nat.add_mul_mod_self_right]

lemma testBit_mul_pow_add_high (x y n j : Nat) (hy : y < 2 ^ n) (hj : n ≤ j) :
    (x * 2 ^ n + y).testBit j = x.testBit (j - n) := by
  rw [Nat.testBit_to_div_mod, Nat.testBit_to_div_mod]
  have hdiv : (x * 2 ^ n + y) / 2 ^ j = x / 2 ^ (j - n) := by
    have h2j : (2 : Nat) ^ j = 2 ^ n * 2 ^ (j - n) := by
      rw [← Nat.pow_add]
      congr 1
      omega
    rw [h2j, ← Nat.div_div_eq_div_mul, Nat.add_comm,
      Nat.add_mul_div_right _ _ (Nat.pos_pow_of_pos n (by norm_num)),
      Nat.div_eq_of_lt hy, Nat.zero_add]
  rw [hdiv]

lemma shiftLeft_or_eq_add (x y n : Nat) (h : y < 2 ^ n) :
    (x <<< n) ||| y = x * 2 ^ n + y := by
  apply Nat.eq_of_testBit_eq
  intro j
  rw [Nat.testBit_or, Nat.testBit_shiftLeft]
  by_cases hj : n ≤ j
  · have hyj : y.testBit j = false :=
      Nat.testBit_eq_false_of_lt
        (lt_of_lt_of_le h (Nat.pow_le_pow_right (by norm_num) hj))
    rw [testBit_mul_pow_add_high x y n j h hj, hyj]
    simp [hj]
  · rw [testBit_mul_pow_add_low x y n j (by omega)]
    simp [hj]

lemma and_two_pow_sub_one_eq_mod (x n : Nat) : x &&& (2 ^ n - 1) = x % 2 ^ n := by
  apply Nat.eq_of_testBit_eq
  intro i
  rw [Nat.testBit_and, Nat.testBit_mod_two_pow, Nat.testBit_two_pow_sub_one,
    Bool.and_comm]

lemma lt_two_pow_of_high_bits_false {x n : Nat}
    (h : ∀ j, n ≤ j → x.testBit j = false) : x < 2 ^ n := by
  have hx : x = x % 2 ^ n := by
    apply Nat.eq_of_testBit_eq
    intro i
    rw [Nat.testBit_mod_two_pow]
    by_cases hi : i < n
    · simp [hi]
    · simp [hi, h i (by omega)]
  rw [hx]
  exact Nat.mod_lt _ (Nat.pos_pow_of_pos n (by norm_num))

lemma xor_lt_two_pow_of_testBit_eq {a b n : Nat} (ha : a < 2 ^ (n + 1))
    (hb : b < 2 ^ (n + 1)) (h : a.testBit n = b.testBit n) : a ^^^ b < 2 ^ n := by
  apply lt_two_pow_of_high_bits_false
  intro j hj
  rw [Nat.testBit_xor]
  rcases Nat.eq_or_lt_of_le hj with rfl | hj'
  · simp [h]
  · have ha' : a.testBit j = false :=
      Nat.testBit_eq_false_of_lt
        (lt_of_lt_of_le ha (Nat.pow_le_pow_right (by norm_num) (by omega)))
    have hb' : b.testBit j = false :=
      Nat.testBit_eq_false_of_lt
        (lt_of_lt_of_le hb (Nat.pow_le_pow_right (by norm_num) (by omega)))
    simp [ha', hb']

/-! ### CRC24Q register lemmas -/

lemma and_two_pow_ne_zero_iff (n i : Nat) : n &&& 2 ^ i ≠ 0 ↔ n.testBit i = true := by
  rw [Nat.and_two_pow]
  have hp : (2 : Nat) ^ i ≠ 0 := Nat.pos_iff_ne_zero.mp (Nat.pos_pow_of_pos i (by norm_num))
  cases h : n.testBit i <;> simp [h, hp]

lemma crcRound_of_lt {c : Nat} (h : c < 2 ^ 24) :
    crcRound c = if (2 * c).testBit 24 then (2 * c) ^^^ 0x1864CFB else 2 * c := by
  have h24 : (2 : Nat) ^ 24 = 16777216 := by norm_num
  have h32 : (2 : Nat) ^ 32 = 4294967296 := by norm_num
  have h1 : c <<< 1 = 2 * c := by rw [Nat.shiftLeft_eq, Nat.pow_one, Nat.mul_comm]
  have h2 : (2 * c) % 2 ^ 32 = 2 * c := Nat.mod_eq_of_lt (by omega)
  have hx : (0x1000000 : Nat) = 2 ^ 24 := by norm_num
  simp only [crcRound, h1, h2, hx]
  by_cases hb : (2 * c).testBit 24 = true
  · rw [if_pos ((and_two_pow_ne_zero_iff (2 * c) 24).mpr hb), if_pos hb]
  · rw [if_neg (fun hc => hb ((and_two_pow_ne_zero_iff (2 * c) 24).mp hc)),
      if_neg (by simpa using hb)]

lemma crcRound_lt {c : Nat} (h : c < 2 ^ 24) : crcRound c < 2 ^ 24 := by
  rw [crcRound_of_lt h]
  have h25 : 2 * c < 2 ^ (24 + 1) := by
    have : (2 : Nat) ^ (24 + 1) = 2 * 2 ^ 24 := by ring
    omega
  by_cases hb : (2 * c).testBit 24 = true
  · rw [if_pos hb]
    refine xor_lt_two_pow_of_testBit_eq h25 (by norm_num) ?_
    rw [hb]
    decide
  · rw [if_neg hb]
    apply lt_two_pow_of_high_bits_false
    intro j hj
    rcases Nat.eq_or_lt_of_le hj with rfl | hj'
    · simpa using hb
    · exact Nat.testBit_eq_false_of_lt
        (lt_of_lt_of_le h25 (Nat.pow_le_pow_right (by norm_num) (by omega)))

lemma crcRound_inj {a b : Nat} (ha : a < 2 ^ 24) (hb : b < 2 ^ 24)
    (h : crcRound a = crcRound b) : a = b := by
  rw [crcRound_of_lt ha, crcRound_of_lt hb] at h
  by_cases h1 : (2 * a).testBit 24 = true <;> by_cases h2 : (2 * b).testBit 24 = true
  · rw [if_pos h1, if_pos h2] at h
    have := Nat.xor_left_inj.mp h
    omega
  · rw [if_pos h1, if_neg h2] at h
    have hp : ((2 * a) ^^^ 0x1864CFB) % 2 = (2 * a + 0x1864CFB) % 2 := Nat.xor_mod_two_eq
    omega
  · rw [if_neg h1, if_pos h2] at h
    have hp : ((2 * b) ^^^ 0x1864CFB) % 2 = (2 * b + 0x1864CFB) % 2 := Nat.xor_mod_two_eq
    omega
  · rw [if_neg h1, if_neg h2] at h
    omega

lemma crcRounds_lt : ∀ n {c : Nat}, c < 2 ^ 24 → crcRounds n c < 2 ^ 24
  | 0, _, h => h
  | n + 1, _, h => crcRounds_lt n (crcRound_lt h)

lemma crcRounds_inj : ∀ n {a b : Nat}, a < 2 ^ 24 → b < 2 ^ 24 →
    crcRounds n a = crcRounds n b → a = b
  | 0, _, _, _, _, h => h
  | n + 1, _, _, ha, hb, h =>
    crcRound_inj ha hb (crcRounds_inj n (crcRound_lt ha) (crcRound_lt hb) h)

lemma xor_shift16_lt {c b : Nat} (hc : c < 2 ^ 24) (hb : b < 256) :
    c ^^^ (b <<< 16) < 2 ^ 24 := by
  apply Nat.xor_lt_two_pow hc
  rw [Nat.shiftLeft_eq]
  calc b * 2 ^ 16 < 256 * 2 ^ 16 := by
        exact Nat.mul_lt_mul_of_lt_of_le hb (le_refl _) (by norm_num)
    _ = 2 ^ 24 := by norm_num

lemma crcByte_lt {c b : Nat} (hc : c < 2 ^ 24) (hb : b < 256) : crcByte c b < 2 ^ 24 :=
  crcRounds_lt 8 (xor_shift16_lt hc hb)

lemma crcByte_inj_byte {c b b' : Nat} (hc : c < 2 ^ 24) (hb : b < 256) (hb' : b' < 256)
    (h : crcByte c b = crcByte c b') : b = b' := by
  have h1 := crcRounds_inj 8 (xor_shift16_lt hc hb) (xor_shift16_lt hc hb') h
  have h2 := Nat.xor_right_inj.mp h1
  rw [Nat.shiftLeft_eq, Nat.shiftLeft_eq] at h2
  exact Nat.eq_of_mul_eq_mul_right (by norm_num) h2

lemma crcByte_inj_state {c c' b : Nat} (hc : c < 2 ^ 24) (hc' : c' < 2 ^ 24)
    (hb : b < 256) (h : crcByte c b = crcByte c' b) : c = c' := by
  have h1 := crcRounds_inj 8 (xor_shift16_lt hc hb) (xor_shift16_lt hc' hb) h
  exact Nat.xor_left_inj.mp h1

lemma foldl_crc_lt : ∀ (l : List Nat) {c : Nat}, c < 2 ^ 24 → (∀ b ∈ l, b < 256) →
    l.foldl crcByte c < 2 ^ 24
  | [], _, hc, _ => hc
  | b :: l, c, hc, hl => by
    simp only [List.foldl_cons]
    exact foldl_crc_lt l (crcByte_lt hc (hl b (by simp)))
      (fun x hx => hl x (by simp [hx]))

lemma foldl_crc_inj : ∀ (l : List Nat) {c c' : Nat}, c < 2 ^ 24 → c' < 2 ^ 24 →
    (∀ b ∈ l, b < 256) → c ≠ c' → l.foldl crcByte c ≠ l.foldl crcByte c'
  | [], _, _, _, _, _, hne => hne
  | b :: l, c, c', hc, hc', hl, hne => by
    simp only [List.foldl_cons]
    have hb : b < 256 := hl b (by simp)
    exact foldl_crc_inj l (crcByte_lt hc hb) (crcByte_lt hc' hb)
      (fun x hx => hl x (by simp [hx]))
      (fun heq => hne (crcByte_inj_state hc hc' hb heq))

/-! ### CRC24Q: implementation agrees with the spec's wording -/

lemma and_mask24_ne_zero_iff (x : Nat) : x &&& 0x1000000 ≠ 0 ↔ x.testBit 24 = true := by
  have h : (0x1000000 : Nat) = 2 ^ 24 := by norm_num
  rw [h]
  exact and_two_pow_ne_zero_iff x 24

lemma crcRound_eq_specRound (c : Nat) : crcRound c = crcSpecRound c := by
  simp only [crcRound, crcSpecRound]
  have h1 : c <<< 1 = c * 2 := by rw [Nat.shiftLeft_eq, Nat.pow_one]
  rw [h1]
  by_cases hb : ((c * 2) % 2 ^ 32).testBit 24 = true
  · rw [if_pos ((and_mask24_ne_zero_iff _).mpr hb), if_pos hb]
  · rw [if_neg (fun hc => hb ((and_mask24_ne_zero_iff _).mp hc)), if_neg (by simpa using hb)]

lemma crcRounds_eq_iterate : ∀ (n c : Nat), crcRounds n c = crcSpecRound^[n] c
  | 0, _ => rfl
  | n + 1, c => by
    rw [show crcRounds (n + 1) c = crcRounds n (crcRound c) from rfl,
      crcRounds_eq_iterate n, crcRound_eq_specRound, Function.iterate_succ_apply]

lemma crcSpecAux_eq_foldl : ∀ (data : List Nat) (r : Nat),
    crcSpecAux data r = (data.foldl crcByte r) % 2 ^ 24
  | [], _ => rfl
  | b :: rest, r => by
    simp only [crcSpecAux, List.foldl_cons, crcByte]
    rw [crcSpecAux_eq_foldl rest, crcRounds_eq_iterate]

lemma crc24q_eq_spec (data : List Nat) : crc24q_new data = crcSpec data := by
  rw [crc24q_new, crcSpec, crcSpecAux_eq_foldl]
  have h : (0xFFFFFF : Nat) = 2 ^ 24 - 1 := by norm_num
  rw [h, and_two_pow_sub_one_eq_mod]

/-! ### Bit-field reader lemmas -/

lemma parseBitsAux_oob (data : List Nat) (start_bit : Nat) :
    ∀ (n i value : Nat), 1 ≤ n → data.length ≤ (start_bit + i + (n - 1)) / 8 →
      parseBitsAux data start_bit n i value = none := by
  intro n
  induction n with
  | zero => intro i v h _; omega
  | succ n ih =>
    intro i v _ hoob
    by_cases hn : n = 0
    · subst hn
      have hnone : data[(start_bit + i) / 8]? = none :=
        List.getElem?_eq_none (by simpa using hoob)
      simp [parseBitsAux, hnone]
    · simp only [parseBitsAux]
      cases hg : data.get? ((start_bit + i) / 8) with
      | none => rfl
      | some byte =>
        apply ih
        · omega
        · have harg : start_bit + (i + 1) + (n - 1) = start_bit + i + (n + 1 - 1) := by
            omega
          rw [harg]
          exact hoob

lemma getD_eq_get_of_lt (data : List Nat) {idx : Nat} (h : idx < data.length) :
    data.getD idx 0 = data.get ⟨idx, h⟩ := by
  rw [List.getD_eq_getElem?_getD, List.getElem?_eq_getElem h]
  rfl

lemma parseBitsAux_eq_sum (data : List Nat) (start_bit : Nat) :
    ∀ (n i value : Nat), n ≤ 32 → value < 2 ^ (32 - n) →
      (∀ j, j < n → (start_bit + i + j) / 8 < data.length) →
      parseBitsAux data start_bit n i value =
        some (value * 2 ^ n +
          ∑ j ∈ Finset.range n, bitAt data (start_bit + i + j) * 2 ^ (n - 1 - j)) := by
  intro n
  induction n with
  | zero => intro i v _ _ _; simp [parseBitsAux]
  | succ n ih =>
    intro i v hn hv hbnd
    have hidx : (start_bit + i) / 8 < data.length := by
      have h0 := hbnd 0 (by omega)
      simpa using h0
    have hget : data.get? ((start_bit + i) / 8) =
        some (data.getD ((start_bit + i) / 8) 0) := by
      rw [getD_eq_get_of_lt data hidx]
      exact List.get?_eq_get hidx
    have hbit : bitAt data (start_bit + i) =
        (data.getD ((start_bit + i) / 8) 0 >>> (7 - (start_bit + i) % 8)) &&& 1 := rfl
    simp only [parseBitsAux, hget]
    have hb1 : (data.getD ((start_bit + i) / 8) 0 >>> (7 - (start_bit + i) % 8)) &&& 1 < 2 :=
      Nat.lt_succ_of_le (Nat.and_le_right)
    have hs1 : v <<< 1 = v * 2 := by rw [Nat.shiftLeft_eq, Nat.pow_one]
    have hpow : (2 : Nat) ^ (32 - n) = 2 * 2 ^ (32 - (n + 1)) := by
      rw [← Nat.pow_succ']
      congr 1
      omega
    have hple : (2 : Nat) ^ (32 - n) ≤ 2 ^ 32 := Nat.pow_le_pow_right (by norm_num) (by omega)
    have hmod : v <<< 1 % 2 ^ 32 = v <<< 1 := by
      apply Nat.mod_eq_of_lt
      rw [hs1]
      omega
    have hval : (v <<< 1 % 2 ^ 32) ||| ((data.getD ((start_bit + i) / 8) 0 >>>
        (7 - (start_bit + i) % 8)) &&& 1) = v * 2 + bitAt data (start_bit + i) := by
      rw [hmod, shiftLeft_or_eq_add v _ 1 (by simpa using hb1), hbit, Nat.pow_one]
    rw [hval]
    have hltv : v * 2 + bitAt data (start_bit + i) < 2 ^ (32 - n) := by
      have : bitAt data (start_bit + i) < 2 := by rw [hbit]; exact hb1
      omega
    rw [ih (i + 1) _ (by omega) hltv
      (fun j hj => by
        have := hbnd (j + 1) (by omega)
        have harg : start_bit + (i + 1) + j = start_bit + i + (j + 1) := by omega
        rw [harg]
        exact this)]
    congr 1
    have hsum : ∑ j ∈ Finset.range (n + 1),
        bitAt data (start_bit + i + j) * 2 ^ (n + 1 - 1 - j) =
        (∑ j ∈ Finset.range n, bitAt data (start_bit + i + (j + 1)) * 2 ^ (n - 1 - j)) +
          bitAt data (start_bit + i) * 2 ^ n := by
      rw [Finset.sum_range_succ']
      congr 1
      apply Finset.sum_congr rfl
      intro j _
      congr 2
      omega
    rw [hsum]
    have hsum2 : ∑ j ∈ Finset.range n, bitAt data (start_bit + (i + 1) + j) * 2 ^ (n - 1 - j) =
        ∑ j ∈ Finset.range n, bitAt data (start_bit + i + (j + 1)) * 2 ^ (n - 1 - j) := by
      apply Finset.sum_congr rfl
      intro j _
      congr 2
      omega
    rw [hsum2, Nat.pow_succ]
    ring

lemma parse_bits_eq_spec (data : List Nat) (s l : Nat)
    (hb : s + l ≤ 8 * data.length) (hl : l ≤ 32) :
    parse_bits data s l = some (readBitsSpecVal data s l) := by
  rw [parse_bits, readBitsSpecVal]
  have h := parseBitsAux_eq_sum data s l 0 0 hl
    (Nat.pos_pow_of_pos _ (by norm_num))
    (fun j hj => by
      rw [Nat.div_lt_iff_lt_mul (by norm_num : (0 : Nat) < 8)]
      omega)
  simpa using h

lemma parse_bits_oob (data : List Nat) (s l : Nat) (hl : 1 ≤ l)
    (h : 8 * data.length < s + l) : parse_bits data s l = none := by
  rw [parse_bits]
  apply parseBitsAux_oob data s l 0 0 hl
  rw [Nat.le_div_iff_mul_le (by norm_num : (0 : Nat) < 8)]
  omega

lemma get_type_short (p : List Nat) (h : p.length < 2) : get_type p = none := by
  match p, h with
  | [], _ => rfl
  | [x], _ => rfl

/-! ### Classifier lemmas -/

set_option maxRecDepth 2000 in
lemma byte_sum_hi : ∀ r < 256,
    r >>> 7 % 2 * 2048 + r >>> 6 % 2 * 1024 + r >>> 5 % 2 * 512 + r >>> 4 % 2 * 256 +
    r >>> 3 % 2 * 128 + r >>> 2 % 2 * 64 + r >>> 1 % 2 * 32 + r % 2 * 16 = r * 16 := by
  decide

set_option maxRecDepth 2000 in
lemma byte_sum_lo : ∀ r < 256,
    r >>> 7 % 2 * 8 + r >>> 6 % 2 * 4 + r >>> 5 % 2 * 2 + r >>> 4 % 2 = r >>> 4 := by
  decide

lemma readBits12 (r0 r1 : Nat) (rest : List Nat) (h0 : r0 < 256) (h1 : r1 < 256) :
    readBitsSpecVal (r0 :: r1 :: rest) 0 12 = r0 * 16 + r1 >>> 4 := by
  have hhi := byte_sum_hi r0 h0
  have hlo := byte_sum_lo r1 h1
  simp [readBitsSpecVal, Finset.sum_range_succ, bitAt] at *
  omega

lemma shiftRight4_lt (r : Nat) (h : r < 256) : r >>> 4 < 16 := by
  rw [Nat.shiftRight_eq_div_pow]
  omega

lemma msgtype_eq_first12 (r0 r1 : Nat) (h1 : r1 < 256) :
    (r0 <<< 4) ||| (r1 >>> 4) = r0 * 16 + r1 >>> 4 := by
  rw [shiftLeft_or_eq_add r0 _ 4 (by simpa using shiftRight4_lt r1 h1)]
  norm_num

lemma get_type_eq_lookup (raw : List Nat) (hbytes : ∀ b ∈ raw, b < 256)
    (hlen : 2 ≤ raw.length) :
    get_type raw = (parse_bits raw 0 12).map lookupType := by
  match raw, hlen with
  | r0 :: r1 :: rest, _ =>
    have h0 : r0 < 256 := hbytes r0 (by simp)
    have h1 : r1 < 256 := hbytes r1 (by simp)
    have hp : parse_bits (r0 :: r1 :: rest) 0 12 =
        some (readBitsSpecVal (r0 :: r1 :: rest) 0 12) :=
      parse_bits_eq_spec _ 0 12 (by simp; omega) (by norm_num)
    rw [hp, readBits12 r0 r1 rest h0 h1]
    show some (lookupType ((r0 <<< 4) ||| (r1 >>> 4))) = _
    rw [msgtype_eq_first12 r0 r1 h1]
    rfl

lemma lookupType_default (code : Nat)
    (h : code ∉ ([1004, 1042, 1046, 1127, 1077, 1087, 1117, 1097, 1006, 1008,
      1033, 1230, 1013, 1019, 1020, 1045, 1044] : List Nat)) :
    lookupType code = MessageType.Unknown code := by
  unfold lookupType
  split <;> simp_all

/-! ### Scanner lemmas -/

lemma scanGo_fuel (buffer : List Nat) :
    ∀ fuel fuel' offset, buffer.length - offset < fuel → buffer.length - offset < fuel' →
      scanGo buffer fuel offset = scanGo buffer fuel' offset := by
  intro fuel
  induction fuel with
  | zero => intro fuel' offset h _; omega
  | succ fuel ih =>
    intro fuel' offset h h'
    match fuel', h' with
    | fuel' + 1, h' =>
      by_cases hoff : offset < buffer.length
      · simp only [scanGo, if_pos hoff]
        by_cases hpre : buffer.getD offset 0 ≠ 0xD3
        · rw [if_pos hpre, if_pos hpre]
          exact ih _ _ (by omega) (by omega)
        · rw [if_neg hpre, if_neg hpre]
          cases hg1 : buffer.get? (offset + 1) with
          | none => rfl
          | some b2 =>
            cases hg2 : buffer.get? (offset + 2) with
            | none => rfl
            | some b3 =>
              dsimp only
              by_cases hlen : buffer.length - offset < scanLength b2 b3 + 6
              · rw [if_pos hlen, if_pos hlen]
                exact ih _ _ (by omega) (by omega)
              · rw [if_neg hlen, if_neg hlen]
                by_cases hcrc :
                    crc24q_new ((buffer.drop offset).take (scanLength b2 b3 + 6)) ≠ 0
                · rw [if_pos hcrc, if_pos hcrc]
                  exact ih _ _ (by omega) (by omega)
                · rw [if_neg hcrc, if_neg hcrc,
                    ih fuel' (offset + scanLength b2 b3 + 7) (by omega) (by omega)]
      · simp only [scanGo, if_neg hoff]

lemma scanGo_ne_none (buffer : List Nat) :
    ∀ fuel offset, buffer.length - offset < fuel → scanGo buffer fuel offset ≠ none := by
  intro fuel
  induction fuel with
  | zero => intro offset h; omega
  | succ fuel ih =>
    intro offset h
    by_cases hoff : offset < buffer.length
    · simp only [scanGo, if_pos hoff]
      by_cases hpre : buffer.getD offset 0 ≠ 0xD3
      · rw [if_pos hpre]
        exact ih _ (by omega)
      · rw [if_neg hpre]
        cases hg1 : buffer.get? (offset + 1) with
        | none => simp
        | some b2 =>
          cases hg2 : buffer.get? (offset + 2) with
          | none => simp
          | some b3 =>
            dsimp only
            by_cases hlen : buffer.length - offset < scanLength b2 b3 + 6
            · rw [if_pos hlen]
              exact ih _ (by omega)
            · rw [if_neg hlen]
              by_cases hcrc :
                  crc24q_new ((buffer.drop offset).take (scanLength b2 b3 + 6)) ≠ 0
              · rw [if_pos hcrc]
                exact ih _ (by omega)
              · rw [if_neg hcrc]
                intro hc
                exact ih _ (by omega) (Option.map_eq_none'.mp hc)
    · simp only [scanGo, if_neg hoff]
      simp

lemma scanGo_no_preamble (buffer : List Nat) (hb : ∀ b ∈ buffer, b ≠ 0xD3) :
    ∀ fuel offset, buffer.length - offset < fuel →
      scanGo buffer fuel offset = some (some []) := by
  intro fuel
  induction fuel with
  | zero => intro offset h; omega
  | succ fuel ih =>
    intro offset h
    by_cases hoff : offset < buffer.length
    · simp only [scanGo, if_pos hoff]
      have hpre : buffer.getD offset 0 ≠ 0xD3 := by
        rw [getD_eq_get_of_lt buffer hoff]
        exact hb _ (List.get_mem buffer offset hoff)
      rw [if_pos hpre]
      exact ih _ (by omega)
    · simp only [scanGo, if_neg hoff]

lemma scanGo_succ (buffer : List Nat) (fuel offset : Nat) :
    scanGo buffer (fuel + 1) offset =
      if offset < buffer.length then
        if buffer.getD offset 0 ≠ 0xD3 then
          scanGo buffer fuel (offset + 1)
        else
          match buffer.get? (offset + 1), buffer.get? (offset + 2) with
          | some byte2, some byte3 =>
            if buffer.length - offset < scanLength byte2 byte3 + 6 then
              scanGo buffer fuel (offset + 1)
            else if crc24q_new ((buffer.drop offset).take (scanLength byte2 byte3 + 6)) ≠ 0 then
              scanGo buffer fuel (offset + 1)
            else
              (scanGo buffer fuel (offset + scanLength byte2 byte3 + 7)).map
                (Option.map (fun rest =>
                  RTCM3Message.mk ((buffer.drop (offset + 3)).take (scanLength byte2 byte3)) :: rest))
          | _, _ => some none
      else some (some []) := rfl

lemma scanGo_done (buffer : List Nat) (fuel offset : Nat) (hf : 1 ≤ fuel)
    (hoff : buffer.length ≤ offset) : scanGo buffer fuel offset = some (some []) := by
  match fuel, hf with
  | f + 1, _ =>
    simp only [scanGo, if_neg (show ¬ offset < buffer.length by omega)]

lemma scanLength_recompose (L : Nat) (h : L < 2 ^ 16) :
    scanLength (L >>> 8) (L % 256) = L := by
  rw [scanLength, shiftLeft_or_eq_add _ _ 8 (by omega : L % 256 < 2 ^ 8),
    Nat.shiftRight_eq_div_pow]
  have h8 : (2 : Nat) ^ 8 = 256 := by norm_num
  rw [h8]
  omega

lemma scan_single_frame (P trailer : List Nat) (hP : P.length ≤ 1023)
    (hT : trailer.length = 3)
    (hcrc : crc24q_new (0xD3 :: (P.length >>> 8) :: (P.length % 256) :: (P ++ trailer)) = 0) :
    parse_rtcm3 (0xD3 :: (P.length >>> 8) :: (P.length % 256) :: (P ++ trailer)) =
      some [RTCM3Message.mk P] := by
  have hlen : (0xD3 :: (P.length >>> 8) :: (P.length % 256) :: (P ++ trailer)).length
      = P.length + 6 := by
    simp [hT]
  have hsl : scanLength (P.length >>> 8) (P.length % 256) = P.length :=
    scanLength_recompose P.length (by omega)
  rw [parse_rtcm3, scanGo_succ]
  rw [if_pos (show 0 < (0xD3 :: (P.length >>> 8) :: (P.length % 256) :: (P ++ trailer)).length
    from by omega)]
  rw [if_neg (show ¬ ((0xD3 :: (P.length >>> 8) :: (P.length % 256) :: (P ++ trailer)).getD 0 0
    ≠ 0xD3) from by simp)]
  rw [show (0xD3 :: (P.length >>> 8) :: (P.length % 256) :: (P ++ trailer)).get? (0 + 1) =
    some (P.length >>> 8) from rfl]
  rw [show (0xD3 :: (P.length >>> 8) :: (P.length % 256) :: (P ++ trailer)).get? (0 + 2) =
    some (P.length % 256) from rfl]
  dsimp only
  rw [hsl, hlen]
  rw [if_neg (show ¬ P.length + 6 - 0 < P.length + 6 from by omega)]
  rw [show ((0xD3 :: (P.length >>> 8) :: (P.length % 256) :: (P ++ trailer)).drop 0).take
      (P.length + 6) = 0xD3 :: (P.length >>> 8) :: (P.length % 256) :: (P ++ trailer) from by
    rw [List.drop_zero]
    exact List.take_of_length_le (le_of_eq hlen)]
  rw [if_neg (show ¬ crc24q_new (0xD3 :: (P.length >>> 8) :: (P.length % 256) :: (P ++ trailer))
    ≠ 0 from by simpa using hcrc)]
  rw [scanGo_done _ _ _ (by omega) (by rw [hlen]; omega)]
  rw [show (0xD3 :: (P.length >>> 8) :: (P.length % 256) :: (P ++ trailer)).drop (0 + 3) =
    P ++ trailer from rfl]
  rw [List.take_left]
  rfl

lemma scanGo_step (buffer : List Nat) (offset fuel : Nat) (hoff : offset < buffer.length) :
    scanGo buffer (fuel + 1) offset = some none
  ∨ scanGo buffer (fuel + 1) offset = scanGo buffer fuel (offset + 1)
  ∨ ∃ L msg, scanGo buffer (fuel + 1) offset =
      (scanGo buffer fuel (offset + L + 6 + 1)).map
        (Option.map (fun rest => msg :: rest)) := by
  simp only [scanGo, if_pos hoff]
  by_cases hpre : buffer.getD offset 0 ≠ 0xD3
  · rw [if_pos hpre]
    right; left; rfl
  · rw [if_neg hpre]
    cases hg1 : buffer.get? (offset + 1) with
    | none => left; rfl
    | some b2 =>
      cases hg2 : buffer.get? (offset + 2) with
      | none => left; rfl
      | some b3 =>
        dsimp only
        by_cases hlen : buffer.length - offset < scanLength b2 b3 + 6
        · rw [if_pos hlen]
          right; left; rfl
        · rw [if_neg hlen]
          by_cases hcrc : crc24q_new ((buffer.drop offset).take (scanLength b2 b3 + 6)) ≠ 0
          · rw [if_pos hcrc]
            right; left; rfl
          · rw [if_neg hcrc]
            right; right
            refine ⟨scanLength b2 b3,
              RTCM3Message.mk ((buffer.drop (offset + 3)).take (scanLength b2 b3)), ?_⟩
            have harith : offset + scanLength b2 b3 + 6 + 1 = offset + scanLength b2 b3 + 7 := by
              omega
            rw [harith]

lemma crc24q_eq_foldl (l : List Nat) (hl : ∀ b ∈ l, b < 256) :
    crc24q_new l = l.foldl crcByte 0 := by
  rw [crc24q_new, show (0xFFFFFF : Nat) = 2 ^ 24 - 1 from by norm_num,
    and_two_pow_sub_one_eq_mod, Nat.mod_eq_of_lt (foldl_crc_lt l (by norm_num) hl)]

/-! ## Claims -/

set_option maxRecDepth 10000 in
/-- C2 (counterexample): at a preamble candidate whose two length bytes are
`0x04, 0x00` (reserved bits nonzero) the scanner computes `L = 1024`, which
is not the masked low-10-bit value `0` and lies outside `0–1023`; on the
six-byte buffer `[0xD3, 0x04, 0x00, 0x5B, 0x9B, 0x90]` with correct CRC the
unmasked length prevents the frame from being recognized. -/
theorem claim_C2_counterexample :
    scanLength 0x04 0x00 = 1024 ∧
    ((((0x04 : Nat) <<< 8) ||| 0x00) &&& 0x3FF) = 0 ∧
    ¬ scanLength 0x04 0x00 ≤ 1023 ∧
    crc24q_new [0xD3, 0x04, 0x00, 0x5B, 0x9B, 0x90] = 0 ∧
    parse_rtcm3 [0xD3, 0x04, 0x00, 0x5B, 0x9B, 0x90] = some [] :=
  ⟨by decide, by decide, by decide, by decide, by decide⟩

/-- C2 (amended): the scanner uses the full 16-bit big-endian value as the
payload length without masking the 6 reserved bits; only when the reserved
bits are zero does `L` equal the masked low 10 bits and lie in `0–1023`;
when they are nonzero, `L` exceeds 1023. -/
theorem claim_C2 : ∀ b2 b3 : Nat, b2 < 256 → b3 < 256 →
    scanLength b2 b3 = b2 * 256 + b3 ∧
    (b2 >>> 2 = 0 →
      scanLength b2 b3 = (((b2 <<< 8) ||| b3) &&& 0x3FF) ∧ scanLength b2 b3 ≤ 1023) ∧
    (b2 >>> 2 ≠ 0 → 1023 < scanLength b2 b3) := by
  intro b2 b3 h2 h3
  have hval : scanLength b2 b3 = b2 * 256 + b3 := by
    rw [scanLength, shiftLeft_or_eq_add b2 b3 8 (by omega)]
    norm_num
  have hsr : b2 >>> 2 = b2 / 4 := by
    rw [Nat.shiftRight_eq_div_pow]
  refine ⟨hval, ?_, ?_⟩
  · intro hres
    rw [hsr] at hres
    have hb2 : b2 < 4 := by omega
    have h10 : (2 : Nat) ^ 10 = 1024 := by norm_num
    have hlt' : scanLength b2 b3 < 2 ^ 10 := by omega
    constructor
    · have hmask : (((b2 <<< 8) ||| b3) &&& 0x3FF) = ((b2 <<< 8) ||| b3) % 2 ^ 10 := by
        rw [show (0x3FF : Nat) = 2 ^ 10 - 1 from by norm_num, and_two_pow_sub_one_eq_mod]
      rw [hmask]
      show scanLength b2 b3 = scanLength b2 b3 % 2 ^ 10
      exact (Nat.mod_eq_of_lt hlt').symm
    · omega
  · intro hres
    rw [hsr] at hres
    omega

/-- C2 (witness for the amended theorem): with length bytes `0x04, 0x00`
the computed length exceeds 1023. -/
theorem claim_C2_witness : (4 : Nat) < 256 ∧ (0 : Nat) < 256 ∧ 1023 < scanLength 4 0 :=
  ⟨by decide, by decide, (claim_C2 4 0 (by decide) (by decide)).2.2 (by decide)⟩

/-- C3 (counterexample): a zero-width read whose start bit lies past the end
of an empty buffer violates the precondition `start_bit + bit_length ≤ 8 *
len(buffer)` yet succeeds with value 0 instead of failing. -/
theorem claim_C3_counterexample :
    8 * ([] : List Nat).length < 1 + 0 ∧ parse_bits [] 1 0 = some 0 :=
  ⟨by decide, by decide⟩

/-- C3 (amended): for every read of at least one bit whose range exceeds the
buffer, `parse_bits` fails (the embedded out-of-range error standing for the
Rust index panic), and classification of a payload shorter than 12 bits
(fewer than two bytes) fails likewise. -/
theorem claim_C3 :
    (∀ (data : List Nat) (s l : Nat), 1 ≤ l → 8 * data.length < s + l →
      parse_bits data s l = none) ∧
    (∀ p : List Nat, p.length < 2 → get_type p = none) :=
  ⟨fun data s l hl h => parse_bits_oob data s l hl h,
   fun p h => get_type_short p h⟩

/-- C3 (witness): a 9-bit read from bit 0 of a 1-byte buffer fails, and
classification of a 1-byte payload fails. -/
theorem claim_C3_witness :
    ((1 : Nat) ≤ 9 ∧ 8 * ([5] : List Nat).length < 0 + 9 ∧ parse_bits [5] 0 9 = none) ∧
    (([5] : List Nat).length < 2 ∧ get_type [5] = none) :=
  ⟨⟨by decide, by decide, claim_C3.1 [5] 0 9 (by decide) (by decide)⟩,
   ⟨by decide, claim_C3.2 [5] (by decide)⟩⟩

/-- C4: an in-range read of at most 32 bits returns the unsigned integer
whose bits, most significant first, are the buffer bits `start_bit` …
`start_bit + bit_length - 1`, bit `i` being bit `7 - (i % 8)` of byte
`i / 8`; in particular `read_bits([0b10110100, 0b11000000], 0, 4) = 11` and
`read_bits(…, 4, 8) = 76`. -/
theorem claim_C4 :
    (∀ (data : List Nat) (s l : Nat), s + l ≤ 8 * data.length → l ≤ 32 →
      parse_bits data s l = some (readBitsSpecVal data s l)) ∧
    parse_bits [0b10110100, 0b11000000] 0 4 = some 11 ∧
    parse_bits [0b10110100, 0b11000000] 4 8 = some 76 :=
  ⟨fun data s l hb hl => parse_bits_eq_spec data s l hb hl, by decide, by decide⟩

/-- C4 (witness): the general statement applied to the spec's own example. -/
theorem claim_C4_witness :
    0 + 4 ≤ 8 * ([0b10110100, 0b11000000] : List Nat).length ∧ (4 : Nat) ≤ 32 ∧
    parse_bits [0b10110100, 0b11000000] 0 4 =
      some (readBitsSpecVal [0b10110100, 0b11000000] 0 4) :=
  ⟨by decide, by decide, claim_C4.1 [0b10110100, 0b11000000] 0 4 (by decide) (by decide)⟩

/-- C5: the implementation's checksum agrees on every byte sequence with the
CRC24Q algorithm exactly as the spec words it (register 0; per byte, XOR
into bits 16–23 then 8 shift/conditional-XOR rounds with polynomial
`0x1864CFB`; result the low 24 bits), and the empty sequence yields 0. -/
theorem claim_C5 :
    (∀ data : List Nat, crc24q_new data = crcSpec data) ∧ crc24q_new [] = 0 :=
  ⟨fun data => crc24q_eq_spec data, by decide⟩

/-- C6: the scanner terminates — `buffer.length - offset + 1` units of fuel
always suffice and the fueled loop never runs out; each iteration either
stops (panic value), advances the cursor by exactly 1 (all failure paths),
or advances it by `L + 6 + 1` while emitting one message (success); and a
buffer containing no `0xD3` byte scans to the empty message list. -/
theorem claim_C6 :
    (∀ (buffer : List Nat) (offset fuel : Nat), buffer.length - offset < fuel →
      scanGo buffer fuel offset = scanGo buffer (buffer.length - offset + 1) offset ∧
      scanGo buffer fuel offset ≠ none) ∧
    (∀ (buffer : List Nat) (offset fuel : Nat), offset < buffer.length →
      scanGo buffer (fuel + 1) offset = some none ∨
      scanGo buffer (fuel + 1) offset = scanGo buffer fuel (offset + 1) ∨
      ∃ L msg, scanGo buffer (fuel + 1) offset =
        (scanGo buffer fuel (offset + L + 6 + 1)).map
          (Option.map (fun rest => msg :: rest))) ∧
    (∀ buffer : List Nat, (∀ b ∈ buffer, b ≠ 0xD3) → parse_rtcm3 buffer = some []) := by
  refine ⟨?_, ?_, ?_⟩
  · intro buffer offset fuel h
    exact ⟨scanGo_fuel buffer fuel _ offset h (by omega),
      scanGo_ne_none buffer fuel offset h⟩
  · intro buffer offset fuel h
    exact scanGo_step buffer offset fuel h
  · intro buffer hb
    rw [parse_rtcm3, scanGo_no_preamble buffer hb _ 0 (by omega)]
    rfl

/-- C6 (witness): the three parts instantiated on the one-byte buffer `[5]`,
which contains no preamble byte. -/
theorem claim_C6_witness :
    (scanGo [5] 2 0 = scanGo [5] (([5] : List Nat).length - 0 + 1) 0 ∧
      scanGo [5] 2 0 ≠ none) ∧
    (scanGo [5] (1 + 1) 0 = some none ∨
      scanGo [5] (1 + 1) 0 = scanGo [5] 1 (0 + 1) ∨
      ∃ L msg, scanGo [5] (1 + 1) 0 =
        (scanGo [5] 1 (0 + L + 6 + 1)).map (Option.map (fun rest => msg :: rest))) ∧
    parse_rtcm3 [5] = some [] :=
  ⟨claim_C6.1 [5] 0 2 (by decide), claim_C6.2.1 [5] 0 1 (by decide),
   claim_C6.2.2 [5] (by decide)⟩

/-- C7: a buffer that is exactly one valid encoded frame for a payload `P`
of length `L ≤ 1023` — preamble `0xD3`, zero reserved bits, 10-bit length
(`L >>> 8` and `L % 256`), payload `P`, 3-byte trailer making the CRC24Q of
the whole frame zero — scans to exactly one message whose payload is `P`
and whose payload length is `L`. -/
theorem claim_C7 : ∀ (P trailer : List Nat), P.length ≤ 1023 → trailer.length = 3 →
    crc24q_new (0xD3 :: (P.length >>> 8) :: (P.length % 256) :: (P ++ trailer)) = 0 →
    parse_rtcm3 (0xD3 :: (P.length >>> 8) :: (P.length % 256) :: (P ++ trailer)) =
      some [RTCM3Message.mk P] ∧ (RTCM3Message.mk P).raw.length = P.length :=
  fun P trailer hP hT hcrc => ⟨scan_single_frame P trailer hP hT hcrc, rfl⟩

set_option maxRecDepth 10000 in
/-- C7 (witness): the general statement applied to the concrete 7-byte
MSM7 payload and its computed CRC trailer. -/
theorem claim_C7_witness :
    payloadB.length ≤ 1023 ∧ ([0x36, 0xA4, 0x2B] : List Nat).length = 3 ∧
    crc24q_new (0xD3 :: (payloadB.length >>> 8) :: (payloadB.length % 256) ::
      (payloadB ++ [0x36, 0xA4, 0x2B])) = 0 ∧
    (parse_rtcm3 (0xD3 :: (payloadB.length >>> 8) :: (payloadB.length % 256) ::
        (payloadB ++ [0x36, 0xA4, 0x2B])) = some [RTCM3Message.mk payloadB] ∧
      (RTCM3Message.mk payloadB).raw.length = payloadB.length) :=
  ⟨by decide, by decide, by decide,
   claim_C7 payloadB [0x36, 0xA4, 0x2B] (by decide) (by decide) (by decide)⟩

/-- C8: classification applies the static table to the unsigned value of the
payload's first 12 bits; every code absent from the table maps to `Unknown`
carrying that code; a payload whose first 12 bits encode 1077 classifies as
GPS-MSM7; and the table maps 9999 — a value no 12-bit field can actually
attain — to `Unknown 9999`. -/
theorem claim_C8 :
    (∀ raw : List Nat, (∀ b ∈ raw, b < 256) → 2 ≤ raw.length →
      get_type raw = (parse_bits raw 0 12).map lookupType) ∧
    (∀ code : Nat, code ∉ ([1004, 1042, 1046, 1127, 1077, 1087, 1117, 1097, 1006,
      1008, 1033, 1230, 1013, 1019, 1020, 1045, 1044] : List Nat) →
      lookupType code = MessageType.Unknown code) ∧
    (∀ raw : List Nat, (∀ b ∈ raw, b < 256) → parse_bits raw 0 12 = some 1077 →
      get_type raw = some MessageType.GPSMSM7) ∧
    lookupType 9999 = MessageType.Unknown 9999 := by
  refine ⟨fun raw hb hl => get_type_eq_lookup raw hb hl,
    fun code hc => lookupType_default code hc, ?_, by decide⟩
  intro raw hb hp
  have hlen : 2 ≤ raw.length := by
    by_contra hc
    push_neg at hc
    have hnone := parse_bits_oob raw 0 12 (by norm_num) (by omega)
    rw [hnone] at hp
    exact absurd hp (by simp)
  rw [get_type_eq_lookup raw hb hlen, hp]
  rfl

/-- C8 (witness): the payload `[0x43, 0x50]` has first 12 bits 1077 and
classifies as GPS-MSM7; 9999 is absent from the table and maps to
`Unknown 9999`. -/
theorem claim_C8_witness :
    (∀ b ∈ ([0x43, 0x50] : List Nat), b < 256) ∧
    2 ≤ ([0x43, 0x50] : List Nat).length ∧
    get_type [0x43, 0x50] = (parse_bits [0x43, 0x50] 0 12).map lookupType ∧
    (9999 : Nat) ∉ ([1004, 1042, 1046, 1127, 1077, 1087, 1117, 1097, 1006,
      1008, 1033, 1230, 1013, 1019, 1020, 1045, 1044] : List Nat) ∧
    lookupType 9999 = MessageType.Unknown 9999 ∧
    parse_bits [0x43, 0x50] 0 12 = some 1077 ∧
    get_type [0x43, 0x50] = some MessageType.GPSMSM7 :=
  ⟨by decide, by decide, claim_C8.1 [0x43, 0x50] (by decide) (by decide),
   by decide, claim_C8.2.1 9999 (by decide), by decide,
   claim_C8.2.2.1 [0x43, 0x50] (by decide) (by decide)⟩

/-- C9: flipping any single bit of any byte sequence whose checksum is 0
makes the checksum nonzero — CRC24Q detects all single-bit errors. -/
theorem claim_C9 (data : List Nat) (hbytes : ∀ b ∈ data, b < 256) (i k : Nat)
    (hi : i < data.length) (hk : k < 8) (hcrc : crc24q_new data = 0) :
    crc24q_new (data.set i (data.get ⟨i, hi⟩ ^^^ (1 <<< k))) ≠ 0 := by
  have h28 : (2 : Nat) ^ 8 = 256 := by norm_num
  have hd : data.get ⟨i, hi⟩ < 256 := hbytes _ (List.get_mem data i hi)
  have hflip : (1 : Nat) <<< k = 2 ^ k := by rw [Nat.shiftLeft_eq, one_mul]
  have hpow : (2 : Nat) ^ k < 2 ^ 8 := Nat.pow_lt_pow_right (by norm_num) hk
  have hd' : data.get ⟨i, hi⟩ ^^^ (1 <<< k) < 256 := by
    rw [hflip]
    have hdlt : data.get ⟨i, hi⟩ < 2 ^ 8 := by omega
    have := Nat.xor_lt_two_pow hdlt hpow
    omega
  have hne : data.get ⟨i, hi⟩ ≠ data.get ⟨i, hi⟩ ^^^ (1 <<< k) := by
    intro he
    have h1 : data.get ⟨i, hi⟩ ^^^ 0 = data.get ⟨i, hi⟩ ^^^ (1 <<< k) := by
      rw [Nat.xor_zero]
      exact he
    have h0 := Nat.xor_right_inj.mp h1
    rw [hflip] at h0
    have := Nat.pos_pow_of_pos k (show 0 < 2 by norm_num)
    omega
  have hdata : data = data.take i ++ data.get ⟨i, hi⟩ :: data.drop (i + 1) := by
    conv_lhs => rw [← List.take_append_drop i data]
    congr 1
    exact List.drop_eq_get_cons hi
  have hset : data.set i (data.get ⟨i, hi⟩ ^^^ (1 <<< k)) =
      data.take i ++ (data.get ⟨i, hi⟩ ^^^ (1 <<< k)) :: data.drop (i + 1) := by
    rw [List.set_eq_take_append_cons_drop, if_pos hi]
  have hbytes' : ∀ b ∈ data.take i ++ (data.get ⟨i, hi⟩ ^^^ (1 <<< k)) :: data.drop (i + 1),
      b < 256 := by
    intro b hb
    rcases List.mem_append.mp hb with h | h
    · exact hbytes b (List.take_subset i data h)
    · rcases List.mem_cons.mp h with rfl | h
      · exact hd'
      · exact hbytes b (List.drop_subset _ data h)
  rw [hset, crc24q_eq_foldl _ hbytes']
  rw [crc24q_eq_foldl data hbytes] at hcrc
  rw [hdata, List.foldl_append, List.foldl_cons] at hcrc
  rw [List.foldl_append, List.foldl_cons]
  have hs0 : (data.take i).foldl crcByte 0 < 2 ^ 24 :=
    foldl_crc_lt _ (by norm_num) (fun b hb => hbytes b (List.take_subset i data hb))
  have hstep : crcByte ((data.take i).foldl crcByte 0) (data.get ⟨i, hi⟩) ≠
      crcByte ((data.take i).foldl crcByte 0) (data.get ⟨i, hi⟩ ^^^ (1 <<< k)) :=
    fun he => hne (crcByte_inj_byte hs0 hd hd' he)
  have hdiff := foldl_crc_inj (data.drop (i + 1))
    (crcByte_lt hs0 hd) (crcByte_lt hs0 hd')
    (fun b hb => hbytes b (List.drop_subset _ data hb)) hstep
  intro hzero
  exact hdiff (hcrc.trans hzero.symm)

set_option maxRecDepth 10000 in
/-- C9 (witness): `[0xD3, 0xE3, 0x33, 0x09]` has checksum 0; flipping the
lowest bit of its first byte makes the checksum nonzero. -/
theorem claim_C9_witness :
    crc24q_new [0xD3, 0xE3, 0x33, 0x09] = 0 ∧
    crc24q_new (([0xD3, 0xE3, 0x33, 0x09] : List Nat).set 0
      (([0xD3, 0xE3, 0x33, 0x09] : List Nat).get ⟨0, by decide⟩ ^^^ (1 <<< 0))) ≠ 0 :=
  ⟨by decide,
   claim_C9 [0xD3, 0xE3, 0x33, 0x09] (by decide) 0 0 (by decide) (by decide) (by decide)⟩

set_option maxRecDepth 10000 in
/-- C10 (code bug): a `0xD3` byte in one of the last two positions makes the
scanner read the two length bytes out of bounds — the reads happen before
the remaining-bytes check — so the embedded scan hits the out-of-bounds
branch (`some none`, a Rust panic) instead of staying in bounds. -/
theorem claim_C10_bug :
    scanGo [0xD3] 2 0 = some none ∧
    parse_rtcm3 [0xD3] = none ∧
    parse_rtcm3 [0xD3, 0x00] = none :=
  ⟨by decide, by decide, by decide⟩

set_option maxRecDepth 10000 in
/-- C1 (counterexample): the buffer that is the exact concatenation of the
two valid frames the claim describes — `frameA` with unrecognized message
number 4095 and `frameB` whose GPS-MSM7 payload carries 1077/5/123456 at
bit offsets 0/12/24 with widths 12/12/30 — pipelines to exactly ONE result,
not two: after a successful frame the cursor advances `L + 7` bytes, one
past the frame end, so the second frame's preamble byte is skipped. -/
theorem claim_C1_counterexample :
    crc24q_new frameA = 0 ∧ crc24q_new frameB = 0 ∧
    parse_bits payloadB 0 12 = some 1077 ∧
    parse_bits payloadB 12 12 = some 5 ∧
    parse_bits payloadB 24 30 = some 123456 ∧
    pipeline (frameA ++ frameB) =
      some [(MessageType.Unknown 4095, MessageInformation.Unknown)] ∧
    ([(MessageType.Unknown 4095, MessageInformation.Unknown)] :
      List (MessageType × MessageInformation)).length ≠ 2 :=
  ⟨by decide, by decide, by decide, by decide, by decide, by decide, by decide⟩

set_option maxRecDepth 10000 in
/-- C1 (amended): on the exact concatenation the pipeline yields exactly one
result, the first frame's `Unknown`/`Unparsed`; with one padding byte
between the frames it yields two results in input order — the first
`Unknown 4095`/`Unparsed`, the second classified GPS-MSM7 but decoded
`Unparsed`, because only the BeiDou-MSM7 kind dispatches to the MSM7 field
extractor (which on this payload would yield 1077/5/123456). -/
theorem claim_C1 :
    pipeline (frameA ++ frameB) =
      some [(MessageType.Unknown 4095, MessageInformation.Unknown)] ∧
    pipeline (frameA ++ [0x00] ++ frameB) =
      some [(MessageType.Unknown 4095, MessageInformation.Unknown),
            (MessageType.GPSMSM7, MessageInformation.Unknown)] ∧
    extract_msm7 payloadB = some (MessageInformation.MSM7 1077 5 123456) :=
  ⟨by decide, by decide, by decide⟩
